import Mathlib

/-
  Verification development for the bittensor-subnet-updater repository.

  Shallow embedding of the scripts under scripts/ :
    - build_profiles.py        (profile templating)
    - scrape_taomarketcap.py   (HTML table scrape into data/subnets.json)
    - fetch_subnets_bt.py      (blockchain fetch into data/subnets.json)
    - fetch_subnetalpha.py     (description fetch into data/descriptions)
    - fetch_taomarketcap_snapshot.py (regex scrape + snapshot + upload)
    - upload_to_vector_store.py, upload_to_openai.py (OpenAI uploads)

  External effects (HTTP fetches, the OpenAI SDK, the filesystem) are
  modelled as explicit inputs: fallible external calls are Except-valued
  oracle parameters, file contents are explicit values, and the writes a
  script performs are returned as data.  Python exceptions are modelled
  with Except; an uncaught exception surfaces as an error value of the
  function that models the script.
-/

namespace SubnetUpdater

/-- JSON values, as produced by Python json.loads.  Numbers are modelled
as integers: every numeric field the claims touch (ids, timestamps,
counts) is integral in the source. -/
inductive Json where
  | jnull : Json
  | jbool : Bool → Json
  | jnum : Int → Json
  | jstr : String → Json
  | jarr : List Json → Json
  | jobj : List (String × Json) → Json

/-- Lookup of a key in an object's binding list.  json.loads builds a
Python dict in which a duplicated key keeps its last occurrence, so the
last binding wins. -/
def lookupLast (l : List (String × Json)) (k : String) : Option Json :=
  (l.reverse.find? (fun p => p.fst == k)).map (fun p => p.snd)

/-- Python dict.get(k, d): the stored value, or the default. -/
def objGetD (l : List (String × Json)) (k : String) (d : Json) : Json :=
  match lookupLast l k with
  | some v => v
  | none => d

/-- The observable content of a text file holding (possibly) JSON:
empty, well-formed JSON, or text that json.loads rejects. -/
inductive FileText where
  | emptyText : FileText
  | badText : FileText
  | jsonText : Json → FileText

namespace BuildProfiles

/- ================= build_profiles.py ================= -/

/-- Character class [a-z0-9] of the regex in slug. -/
def goodChar (c : Char) : Bool :=
  (decide ('a' ≤ c) && decide (c ≤ 'z')) || (decide ('0' ≤ c) && decide (c ≤ '9'))

mutual
/-- re.sub applied to r-quoted pattern of one-or-more characters outside
[a-z0-9], replacement a single dash: scanning from the start, a good
character is copied, and a maximal run of bad characters is replaced by
one dash (pySubB consumes the remainder of the run). -/
def pySub : List Char → List Char
  | [] => []
  | c :: cs => if goodChar c then c :: pySub cs else '-' :: pySubB cs

/-- State inside a bad run whose dash has already been emitted. -/
def pySubB : List Char → List Char
  | [] => []
  | c :: cs => if goodChar c then c :: pySub cs else pySubB cs
end

/-- Python str.strip of dash from the left. -/
def stripL (l : List Char) : List Char :=
  l.dropWhile (fun c => c == '-')

/-- Python str.strip of dash from the right. -/
def stripR (l : List Char) : List Char :=
  (l.reverse.dropWhile (fun c => c == '-')).reverse

/-- Python str.strip of dash on both ends, as in slug. -/
def pyStripDash (l : List Char) : List Char :=
  stripR (stripL l)

/-- slug from build_profiles.py: lowercase, replace each maximal run of
characters outside [a-z0-9] by one dash, strip dashes at both ends.
Char.toLower lowers ASCII letters, which is where Python str.lower and
it agree; the claims only involve such strings. -/
def slugStr (s : String) : String :=
  String.mk (pyStripDash (pySub (s.toList.map Char.toLower)))

/-- Removal of a leading run of characters outside [a-z0-9]. -/
def badDrop (l : List Char) : List Char :=
  l.dropWhile (fun c => !goodChar c)

/-- Accumulating scan producing the maximal runs of characters inside
[a-z0-9]: acc is the run currently open. -/
def runsAux : List Char → List Char → List (List Char)
  | [], acc => if acc.isEmpty then [] else [acc]
  | c :: cs, acc =>
    if goodChar c then runsAux cs (acc ++ [c])
    else if acc.isEmpty then runsAux cs [] else acc :: runsAux cs []

/-- The maximal runs of characters inside [a-z0-9] of a string, in
order. -/
def goodRuns (l : List Char) : List (List Char) :=
  runsAux l []

/-- Joining runs with a single dash between consecutive runs: the
specification reading of slug, in which every maximal run of characters
outside [a-z0-9] becomes one separating dash and boundary runs vanish. -/
def joinDash : List (List Char) → List Char
  | [] => []
  | [r] => r
  | r :: r2 :: rs => r ++ '-' :: joinDash (r2 :: rs)

/-- A subnet record once its id and name have been extracted; sid is the
str() image of the id as interpolated into the file name. -/
structure Row where
  sid : String
  name : String

/-- The profile path data/profiles/{sid}_{slug(name)}.md. -/
def fileName (r : Row) : String :=
  "data/profiles/" ++ r.sid ++ "_" ++ slugStr r.name ++ ".md"

/-- The fifteen named fields of TEMPLATE.format. -/
structure TemplateFields where
  name : String
  sid : String
  functionTxt : String
  problem : String
  aud1 : String
  aud2 : String
  growth : String
  growthReason : String
  st : String
  stReason : String
  mt : String
  mtReason : String
  lt : String
  ltReason : String
  conv : String
  convReason : String
  trend : String
  link : String

/-- TEMPLATE with its format fields substituted, transcribed from the
triple-quoted literal in build_profiles.py. -/
def templateFormat (f : TemplateFields) : String :=
  "# " ++ f.name ++ " (Subnet " ++ f.sid ++ ")\n" ++
  "**Primary Function:** " ++ f.functionTxt ++ "\n\n" ++
  "**Problem It Solves:** " ++ f.problem ++ "\n\n" ++
  "**Target Audience:** \n" ++
  "- " ++ f.aud1 ++ "\n" ++
  "- " ++ f.aud2 ++ "\n\n" ++
  "**Projected Growth Score (1–10):** " ++ f.growth ++ " — " ++ f.growthReason ++ "\n\n" ++
  "**Conviction Scores**\n" ++
  "- **Short-term (1–3 mo):** " ++ f.st ++ " — " ++ f.stReason ++ "\n" ++
  "- **Medium-term (3–12 mo):** " ++ f.mt ++ " — " ++ f.mtReason ++ "\n" ++
  "- **Long-term (1+ yr):** " ++ f.lt ++ " — " ++ f.ltReason ++ "\n\n" ++
  "**Buy/Sell Conviction Meter:** " ++ f.conv ++ " — " ++ f.convReason ++ "\n\n" ++
  "**Trending / Alerts (last 48h):** " ++ f.trend ++ "\n\n" ++
  "**Official Link:** " ++ f.link ++ "\n"

/-- Python str.strip() on the description text. -/
def pyTrim (s : String) : String :=
  String.mk (((s.toList.dropWhile Char.isWhitespace).reverse.dropWhile
      Char.isWhitespace).reverse)

/-- The function text: the stripped description file when it exists,
else the fixed fallback sentence. -/
def functionText (d : Option String) : String :=
  match d with
  | some t => pyTrim t
  | none => "Description not yet available; will update soon."

/-- The field assignment main passes to TEMPLATE.format for one record:
name, sid and the description vary; every other field is a literal. -/
def mkFields (r : Row) (d : Option String) : TemplateFields :=
  { name := r.name
    sid := r.sid
    functionTxt := functionText d
    problem := "TBD (auto-fill by live agent or add rules)."
    aud1 := "Developers / users of this subnet"
    aud2 := "Investors tracking Bittensor subnets"
    growth := "7"
    growthReason := "baseline; refined by live market signals."
    st := "50"
    stReason := "baseline; sentiment will update live."
    mt := "60"
    mtReason := "baseline; dev progress updates live."
    lt := "70"
    ltReason := "baseline; macro fit updates live."
    conv := "55"
    convReason := "baseline synthesis of fundamentals + sentiment."
    trend := "Checked by live agent."
    link := "(website or X will be attached by live agent)" }

/-- The markdown content written for one record. -/
def renderProfile (r : Row) (d : Option String) : String :=
  templateFormat (mkFields r d)

/-- Extraction of sid and name from one element of the subnets list,
with the Python failure modes: a non-object cannot be subscripted, a
missing key raises KeyError, and slug needs name.lower(), so a non-string
name raises AttributeError.  str() of a composite id (the Python repr of
a list or dict) is not modelled; the claims only involve atomic ids. -/
def extractRow (e : Json) : Except String Row :=
  match e with
  | .jobj l =>
    match lookupLast l "id" with
    | none => .error "KeyError: id"
    | some idv =>
      match lookupLast l "name" with
      | none => .error "KeyError: name"
      | some namev =>
        match namev with
        | .jstr n =>
          match idv with
          | .jnum i => .ok { sid := toString i, name := n }
          | .jstr s2 => .ok { sid := s2, name := n }
          | .jbool b => .ok { sid := if b then "True" else "False", name := n }
          | _ => .error "unmodelled: str() of a composite id"
        | _ => .error "AttributeError: lower"
  | _ => .error "TypeError: not subscriptable"

/-- Iterating the value of data.get of the subnets key, as Python
iteration: a list yields its elements, a string yields its characters as
one-character strings, an object yields its keys, and null, booleans and
numbers are not iterable. -/
def iterElems : Json → Except String (List Json)
  | .jarr l => .ok l
  | .jstr s => .ok (s.toList.map (fun c => .jstr (String.mk [c])))
  | .jobj l => .ok (l.map (fun p => .jstr p.fst))
  | _ => .error "TypeError: not iterable"

/-- The per-record loop of main: each record yields one write of
(fileName, renderProfile); the first extraction failure aborts the run,
keeping the writes already performed. -/
def buildGo (descs : String → Option String) :
    List Json → List (String × String) × Option String
  | [] => ([], none)
  | e :: es =>
    match extractRow e with
    | .error msg => ([], some msg)
    | .ok r =>
      let w := (fileName r, renderProfile r (descs r.sid))
      let rest := buildGo descs es
      (w :: rest.fst, rest.snd)

/-- The body of main once json.loads succeeded.  data.get needs a dict
(AttributeError otherwise); the default for a missing subnets key is the
empty list. -/
def buildParsed (j : Json) (descs : String → Option String) :
    List (String × String) × Option String :=
  match j with
  | .jobj l =>
    match iterElems (objGetD l "subnets" (.jarr [])) with
    | .error e => ([], some e)
    | .ok es => buildGo descs es
  | _ => ([], some "AttributeError: get")

/-- main of build_profiles.py over the content of data/subnets.json:
the result is the ordered list of (path, content) writes into
data/profiles, paired with the uncaught exception if one is raised.
read_text() or the literal default: an empty file is parsed as an object
whose subnets value is the empty list; a missing file raises. -/
def buildMain (file : Option FileText) (descs : String → Option String) :
    List (String × String) × Option String :=
  match file with
  | none => ([], some "FileNotFoundError")
  | some .badText => ([], some "JSONDecodeError")
  | some .emptyText => buildParsed (.jobj [("subnets", .jarr [])]) descs
  | some (.jsonText j) => buildParsed j descs

/-- Well-formed extraction of a whole subnets list; some rows exactly
when every element extracts. -/
def extractRows : List Json → Option (List Row)
  | [] => some []
  | e :: es =>
    match extractRow e with
    | .ok r => (extractRows es).map (fun rs => r :: rs)
    | .error _ => none

end BuildProfiles

namespace ScrapeTao

/- ================= scrape_taomarketcap.py ================= -/

/-- A row extracted by fetch_table: the integer id and the name matched
by the regex over the first table cell. -/
structure SRow where
  id : Int
  name : String

/-- The JSON object appended to the new subnets list for one row. -/
def rowJson (r : SRow) : Json :=
  .jobj [("id", .jnum r.id), ("name", .jstr r.name)]

/-- The object written to data/subnets.json on success: the fetched rows
under subnets plus the run timestamp. -/
def newJson (rows : List SRow) (t : Int) : Json :=
  .jobj [("subnets", .jarr (rows.map rowJson)), ("timestamp", .jnum t)]

/-- Loading of the prior file as main does: a missing file keeps the
literal default object, an empty file falls back to the default via the
or-expression, malformed text raises JSONDecodeError. -/
def loadsPrior : Option FileText → Except String Json
  | none => .ok (.jobj [("subnets", .jarr [])])
  | some .emptyText => .ok (.jobj [("subnets", .jarr [])])
  | some .badText => .error "JSONDecodeError"
  | some (.jsonText j) => .ok j

/-- Whether a JSON value may be a Python dict key (hashable): lists and
dicts are not. -/
def hashableKey : Json → Bool
  | .jarr _ => false
  | .jobj _ => false
  | _ => true

/-- Whether one element of the old subnets list survives the dict
comprehension building old_map: it must be an object carrying a hashable
id and a name. -/
def oldEntryOk (e : Json) : Bool :=
  match e with
  | .jobj l =>
    match lookupLast l "id" with
    | some k => hashableKey k && (lookupLast l "name").isSome
    | none => false
  | _ => false

/-- Whether the parsed prior value gets through the old_map comprehension
without raising: old.get needs a dict; its subnets value is iterated (an
empty string iterates zero times; each character of a non-empty string,
and each key of a dict, is a string whose subscripting raises). -/
def oldOk (j : Json) : Bool :=
  match j with
  | .jobj l =>
    match objGetD l "subnets" (.jarr []) with
    | .jarr es => es.all oldEntryOk
    | .jstr s => s.isEmpty
    | .jobj m => m.isEmpty
    | _ => false
  | _ => false

/-- main of scrape_taomarketcap.py: the resulting content of
data/subnets.json.  fetch_table runs first; an exception there, or while
parsing the prior file, or in the old_map comprehension, propagates (no
handler in this script), leaving the prior content untouched.  The loop
over the new rows cannot raise (ids are ints, names strings), and the
write of data/subnets.json precedes the diff write. -/
def scrapeMain (fetch : Except String (List SRow)) (t : Int)
    (prior : Option FileText) : Option FileText :=
  match fetch with
  | .error _ => prior
  | .ok rows =>
    match loadsPrior prior with
    | .error _ => prior
    | .ok oldJ =>
      if oldOk oldJ then some (.jsonText (newJson rows t)) else prior

/-- The prior states from which main reaches its write. -/
def priorOk (prior : Option FileText) : Bool :=
  match loadsPrior prior with
  | .ok oldJ => oldOk oldJ
  | .error _ => false

/-- Whether a file state parses as JSON carrying a subnets key. -/
def hasSubnetsKey : Option FileText → Bool
  | some (.jsonText (.jobj l)) => (lookupLast l "subnets").isSome
  | _ => false

end ScrapeTao

namespace FetchBt

/- ================= fetch_subnets_bt.py ================= -/

/-- Oracle for the subtensor probes get_subnet_info performs on one
subnet id; each is an external call that may raise.  The price entry
carries the final value of the float conversion expression, whose own
ValueError is absorbed by the same try. -/
structure Probe where
  subnetExists : Except String Bool
  isActive : Except String Bool
  ownerHotkey : Except String Json
  priceVal : Except String Json
  hyperparams : Except String (Option (List (String × Json)))

/-- The note literal of both output structures. -/
def noteStr : String :=
  "Data fetched using only public blockchain information - no credentials required"

/-- get_subnet_info: always returns an object with id and name; the
inner try blocks turn individual probe failures into null fields with an
error message, and the outer handler returns the error record. -/
def getSubnetInfo (p : Probe) (sid : Int) (now : Int) : Json :=
  match p.subnetExists with
  | .error e =>
    .jobj [("id", .jnum sid), ("name", .jstr ("Subnet " ++ toString sid)),
           ("error", .jstr e), ("last_update", .jnum now)]
  | .ok false =>
    .jobj [("id", .jnum sid), ("name", .jstr ("Subnet " ++ toString sid)),
           ("error", .jstr "Subnet does not exist"), ("last_update", .jnum now)]
  | .ok true =>
    let base := [("id", Json.jnum sid),
                 ("name", Json.jstr ("Subnet " ++ toString sid)),
                 ("exists", Json.jbool true),
                 ("last_update", Json.jnum now)]
    let act := match p.isActive with
      | .ok b => [("is_active", Json.jbool b)]
      | .error e => [("is_active", Json.jnull), ("is_active_error", Json.jstr e)]
    let own := match p.ownerHotkey with
      | .ok v => [("owner_hotkey", v)]
      | .error e => [("owner_hotkey", Json.jnull), ("owner_error", Json.jstr e)]
    let pr := match p.priceVal with
      | .ok v => [("price", v)]
      | .error e => [("price", Json.jnull), ("price_error", Json.jstr e)]
    let hyp := match p.hyperparams with
      | .ok (some h) => [("hyperparameters", Json.jobj h)]
      | .ok none => [("hyperparameters", Json.jnull)]
      | .error e => [("hyperparameters", Json.jnull),
                     ("hyperparameters_error", Json.jstr e)]
    .jobj (base ++ act ++ own ++ pr ++ hyp)

/-- main of fetch_subnets_bt.py: the content written to
data/subnets.json.  The whole body sits in one try; connecting and
get_subnets may raise (modelled by the fetch argument), after which
get_subnet_info never raises, so on any failure the handler writes the
error structure with an empty subnets list. -/
def btMain (fetch : Except String (List Int)) (probes : Int → Probe)
    (t : Int) : FileText :=
  match fetch with
  | .ok ids =>
    .jsonText (.jobj
      [("subnets", .jarr (ids.map (fun i => getSubnetInfo (probes i) i t))),
       ("total_count", .jnum ids.length),
       ("timestamp", .jnum t),
       ("network", .jstr "finney"),
       ("source", .jstr "bittensor_subtensor_sdk_public"),
       ("note", .jstr noteStr)])
  | .error e =>
    .jsonText (.jobj
      [("subnets", .jarr []),
       ("total_count", .jnum 0),
       ("timestamp", .jnum t),
       ("network", .jstr "finney"),
       ("source", .jstr "bittensor_subtensor_sdk_public"),
       ("error", .jstr e),
       ("note", .jstr noteStr)])

end FetchBt

namespace FetchAlpha

/- ================= fetch_subnetalpha.py ================= -/

/-- A subnet as seen by main: the str() image of its id (used in the
description path) and its name (passed to find_page). -/
structure ARow where
  sid : String
  name : String

/-- The description store data/descriptions keyed by id: the content of
{sid}.md when the file exists. -/
def DescState : Type := String → Option String

/-- One iteration of main's loop: an existing description file makes the
iteration a no-op; otherwise find_page may locate a page, whose extracted
text is written only when non-empty. -/
def alphaStep (findPage : String → Option String)
    (extractTxt : String → String) (st : DescState) (r : ARow) : DescState :=
  match st r.sid with
  | some _ => st
  | none =>
    match findPage r.name with
    | none => st
    | some url =>
      let txt := extractTxt url
      if txt = "" then st
      else fun k => if k = r.sid then some txt else st k

/-- main of fetch_subnetalpha.py as a transformer of the description
store; find_page and extract_function_text are network oracles. -/
def alphaMain (findPage : String → Option String)
    (extractTxt : String → String) (rows : List ARow)
    (st : DescState) : DescState :=
  rows.foldl (alphaStep findPage extractTxt) st

end FetchAlpha

namespace Snapshot

/- ============ fetch_taomarketcap_snapshot.py ============ -/

/-- The six findall results and the two search results the function
computes over the fetched page, taken as inputs (the regex engine is
third-party); each list holds the captured strings in match order. -/
structure Page where
  subnetIds : List String
  names : List String
  prices : List String
  marketcaps : List String
  volumes : List String
  emissions : List String
  sumMatch : Option String
  trendingMatch : Option String

/-- The names bound at module level in fetch_taomarketcap_snapshot.py:
its import statements bind exactly these (the import json inside
fetch_from_main_page is function-local and binds nothing here). -/
def moduleImports : List String :=
  ["requests", "os", "datetime", "re", "sys", "Path", "BeautifulSoup"]

/-- Whether the bare name json resolves inside fetch_taomarketcap. -/
def jsonInScope : Bool := moduleImports.contains "json"

/-- One record of the subnets list.  The Python dict renders the numeric
fields through float formatting; the claims only concern how many
records exist and which matches each pairs, so the raw captured tokens
are retained. -/
structure SubRec where
  id : String
  name : String
  priceTok : String
  mcTok : String
  volTok : String
  emTok : String

/-- The guard tok.replace of dot by nothing, then isdigit: true exactly
when at least one character remains and all are digits. -/
def pyFloatGuard (tok : String) : Bool :=
  let ds := tok.toList.filter (fun c => c ≠ '.')
  (!ds.isEmpty) && ds.all Char.isDigit

/-- Whether the guarded conversion float(tok) raises: the guard passed
(so tok is digits and dots with a digit somewhere) yet tok holds two or
more dots, which float rejects. -/
def pyFloatRaises (tok : String) : Bool :=
  pyFloatGuard tok && decide (2 ≤ tok.toList.count '.')

/-- min over the six findall lengths, as in the range bound. -/
def minCount (p : Page) : Nat :=
  min p.subnetIds.length (min p.names.length (min p.prices.length
    (min p.marketcaps.length (min p.volumes.length p.emissions.length))))

/-- The body of the processing loop at index i: the four numeric fields
are converted in order inside a try whose handler continues, so the row
is skipped exactly when some guarded conversion raises. -/
def procRow (p : Page) (i : Nat) : Option SubRec :=
  let idt := p.subnetIds.getD i ""
  let nm := p.names.getD i ""
  let pr := p.prices.getD i ""
  let mc := p.marketcaps.getD i ""
  let vo := p.volumes.getD i ""
  let em := p.emissions.getD i ""
  if pyFloatRaises pr || pyFloatRaises mc || pyFloatRaises vo || pyFloatRaises em
  then none
  else some { id := idt, name := nm, priceTok := pr, mcTok := mc,
              volTok := vo, emTok := em }

/-- The unguarded conversion float(tok) on a capture of the sum regex
(characters restricted to digits and dots by its pattern): it succeeds
exactly when tok has a digit, at most one dot, and no other character;
exponent and infinity spellings need letters the pattern cannot match. -/
def sumFloatRaises (tok : String) : Bool :=
  !(tok.toList.any Char.isDigit
    && decide (tok.toList.count '.' ≤ 1)
    && tok.toList.all (fun c => c.isDigit || c = '.'))

/-- The trending computation: no match leaves the empty list; on a match
the try body evaluates the name json, which module scope does not bind,
so NameError is raised and the bare except yields the empty list.  The
parse oracle stands for the json.loads branch that would run if the name
resolved. -/
def taoTrending (parse : String → List String) (p : Page) : List String :=
  match p.trendingMatch with
  | none => []
  | some payload =>
    match (if jsonInScope then Except.ok (parse payload)
           else Except.error "NameError: name json is not defined") with
    | .ok l => l.take 10
    | .error _ => []

/-- The dictionary fetch_taomarketcap returns on success.  The sum field
keeps the raw capture (its dollar formatting goes through floats). -/
structure TaoResult where
  subnets : List SubRec
  sumRaw : Option String
  trending : List String

/-- fetch_taomarketcap: none of the result models the None returns (a
failed request, or zero matches); the outer error models an uncaught
exception, which only the unguarded sum conversion can raise. -/
def fetchTao (resp : Except String Page) (parse : String → List String) :
    Except String (Option TaoResult) :=
  match resp with
  | .error _ => .ok none
  | .ok p =>
    if minCount p = 0 then .ok none
    else
      let subs := (List.range (minCount p)).filterMap (procRow p)
      match p.sumMatch with
      | some v =>
        if sumFloatRaises v then .error "ValueError: float"
        else .ok (some { subnets := subs, sumRaw := some v,
                         trending := taoTrending parse p })
      | none =>
        .ok (some { subnets := subs, sumRaw := none,
                    trending := taoTrending parse p })

/-- upload_to_vector_store of fetch_taomarketcap_snapshot.py: True/False
result over the external oracles.  There is no key-format check here;
one try wraps import, client creation and the file upload, and a second
inner try makes a failed vector-store attach still return True. -/
def snapUpload (apiKey : Option String) (fileExists : Bool)
    (importOk : Except String Unit) (clientOk : Except String Unit)
    (filesCreate : Except String String)
    (vsCreate : Except String String) : Bool :=
  if !fileExists then false
  else
    match apiKey with
    | none => false
    | some _ =>
      match importOk with
      | .error _ => false
      | .ok _ =>
        match clientOk with
        | .error _ => false
        | .ok _ =>
          match filesCreate with
          | .error _ => false
          | .ok _ =>
            match vsCreate with
            | .ok _ => true
            | .error _ => true

/-- A concrete page on which every one of the six regexes matches once
with benign numeric tokens, and the trending regex matches as well. -/
def onePage : Page :=
  { subnetIds := ["1"]
    names := ["apex"]
    prices := ["1.5"]
    marketcaps := ["2"]
    volumes := ["3"]
    emissions := ["4"]
    sumMatch := none
    trendingMatch := some "payload" }

/-- A concrete page with one match per field whose price token carries
two dots, making the guarded float conversion raise. -/
def badPricePage : Page :=
  { subnetIds := ["1"]
    names := ["a"]
    prices := ["1..2"]
    marketcaps := ["3"]
    volumes := ["4"]
    emissions := ["5"]
    sumMatch := none
    trendingMatch := none }

/-- The record the one-row page yields. -/
def oneRec : SubRec :=
  { id := "1"
    name := "apex"
    priceTok := "1.5"
    mcTok := "2"
    volTok := "3"
    emTok := "4" }

/-- The dictionary the one-row page yields. -/
def oneResult : TaoResult :=
  { subnets := [oneRec]
    sumRaw := none
    trending := [] }

end Snapshot

/-- The network operations of the upload scripts, for tracking that a
code path performs no remote call. -/
inductive NetCall where
  | filesList : NetCall
  | filesCreate : NetCall
  | vsFilesCreate : NetCall
  | legacyFileCreate : NetCall
deriving DecidableEq, Repr

namespace UploadVS

/- ================= upload_to_vector_store.py ================= -/

/-- Python api_key.startswith of the literal sk dash. -/
def startsWithSk (s : String) : Bool :=
  match s.toList with
  | 's' :: 'k' :: '-' :: _ => true
  | _ => false

/-- The legacy fallback block (method 2): import openai, then
openai.File.create; its except falls through to the final return 1. -/
def legacyPath (trace : List NetCall) (legacyImportOk : Except String Unit)
    (legacyCreate : Except String String) : Int × List NetCall :=
  match legacyImportOk with
  | .error _ => (1, trace)
  | .ok _ =>
    let trace2 := trace ++ [NetCall.legacyFileCreate]
    match legacyCreate with
    | .ok _ => (0, trace2)
    | .error _ => (1, trace2)

/-- main of upload_to_vector_store.py: exit code and the remote calls
attempted, over oracles for the environment, the local file and each SDK
operation.  The key checks come before anything remote; the file listing
is attempted but its failure is swallowed; a files.create failure falls
back to the legacy path; after a successful upload, the vector-store
attach returns 0 whether or not it raises. -/
def upMain (apiKey : Option String) (fileExists : Bool)
    (importNewOk : Except String Unit) (clientOk : Except String Unit)
    (listRes : Except String Nat) (createRes : Except String String)
    (vsRes : Except String String) (legacyImportOk : Except String Unit)
    (legacyCreate : Except String String) : Int × List NetCall :=
  match apiKey with
  | none => (1, [])
  | some k =>
    if !startsWithSk k then (1, [])
    else if !fileExists then (1, [])
    else
      match importNewOk with
      | .error _ => legacyPath [] legacyImportOk legacyCreate
      | .ok _ =>
        match clientOk with
        | .error _ => legacyPath [] legacyImportOk legacyCreate
        | .ok _ =>
          let trace1 := [NetCall.filesList]
          match listRes with
          | _ =>
            let trace2 := trace1 ++ [NetCall.filesCreate]
            match createRes with
            | .error _ => legacyPath trace2 legacyImportOk legacyCreate
            | .ok _ =>
              let trace3 := trace2 ++ [NetCall.vsFilesCreate]
              match vsRes with
              | .ok _ => (0, trace3)
              | .error _ => (0, trace3)

end UploadVS

namespace UploadOpenai

/- ================= upload_to_openai.py ================= -/

/-- main of upload_to_openai.py: exit code and remote calls attempted.
A missing data/subnets.json returns None, which exit() maps to status 0.
consolidate_profiles raises when data/profiles is missing (caught by the
outer handler, status 1).  get_openai_client raises ValueError only for
an absent key; there is no format check.  list_existing_files swallows
its own failure; upload_to_openai swallows a files.create failure and
returns None, after which main still returns 0. -/
def openaiMain (apiKey : Option String) (subnetsExists : Bool)
    (profilesOk : Bool) (listRes : Except String Nat)
    (createRes : Except String String) : Int × List NetCall :=
  if !subnetsExists then (0, [])
  else if !profilesOk then (1, [])
  else
    match apiKey with
    | none => (1, [])
    | some _ =>
      let trace1 := [NetCall.filesList]
      match listRes with
      | _ =>
        let trace2 := trace1 ++ [NetCall.filesCreate]
        match createRes with
        | .ok _ => (0, trace2)
        | .error _ => (0, trace2)

end UploadOpenai

/- ====================================================== -/
/- Helper lemmas                                          -/
/- ====================================================== -/

namespace BuildProfiles

theorem goodChar_ne_dash {c : Char} (h : goodChar c = true) : (c == '-') = false := by
  cases hc : c == '-' with
  | false => rfl
  | true =>
    cases eq_of_beq hc
    exact absurd h (by decide)

theorem dropWhile_head_false {p : Char → Bool} :
    ∀ {l : List Char} {c : Char} {rest : List Char},
      l.dropWhile p = c :: rest → p c = false := by
  intro l
  induction l with
  | nil => intro c rest h; simp [List.dropWhile] at h
  | cons a as ih =>
    intro c rest h
    by_cases hp : p a
    · rw [List.dropWhile_cons, if_pos hp] at h
      exact ih h
    · rw [List.dropWhile_cons, if_neg hp] at h
      cases h
      simpa using hp

theorem dropWhile_length_le {p : Char → Bool} :
    ∀ l : List Char, (l.dropWhile p).length ≤ l.length := by
  intro l
  induction l with
  | nil => simp
  | cons a as ih =>
    by_cases hp : p a
    · rw [List.dropWhile_cons, if_pos hp]
      exact Nat.le_trans ih (Nat.le_succ _)
    · rw [List.dropWhile_cons, if_neg hp]

theorem badDrop_head_good {l : List Char} {c : Char} {rest : List Char}
    (h : badDrop l = c :: rest) : goodChar c = true := by
  have hb := dropWhile_head_false (p := fun c => !goodChar c) h
  simpa using hb

theorem badDrop_cons_bad {c : Char} {cs : List Char} (h : goodChar c = false) :
    badDrop (c :: cs) = badDrop cs := by
  simp [badDrop, List.dropWhile_cons, h]

theorem badDrop_cons_good {c : Char} {cs : List Char} (h : goodChar c = true) :
    badDrop (c :: cs) = c :: cs := by
  simp [badDrop, List.dropWhile_cons, h]

theorem badDrop_idem (l : List Char) : badDrop (badDrop l) = badDrop l := by
  cases h : badDrop l with
  | nil => rfl
  | cons c rest => exact badDrop_cons_good (badDrop_head_good h)

theorem pySubB_eq (l : List Char) : pySubB l = pySub (badDrop l) := by
  induction l with
  | nil => rfl
  | cons c cs ih =>
    by_cases h : goodChar c
    · rw [pySubB, if_pos h, badDrop_cons_good h, pySub, if_pos h]
    · rw [pySubB, if_neg (by simp [h]),
        badDrop_cons_bad (by simpa using h), ih]

theorem stripL_pySub_badDrop (m : List Char) :
    stripL (pySub (badDrop m)) = pySub (badDrop m) := by
  cases h : badDrop m with
  | nil => rfl
  | cons c rest =>
    have hg := badDrop_head_good h
    have hd := goodChar_ne_dash hg
    rw [pySub, if_pos hg, stripL, List.dropWhile_cons, if_neg (by simp [hd])]

theorem stripL_pySub (l : List Char) : stripL (pySub l) = pySub (badDrop l) := by
  cases l with
  | nil => rfl
  | cons c cs =>
    by_cases h : goodChar c
    · have hd := goodChar_ne_dash h
      rw [pySub, if_pos h, badDrop_cons_good h, pySub, if_pos h,
        stripL, List.dropWhile_cons, if_neg (by simp [hd])]
    · have hb : goodChar c = false := by simpa using h
      rw [pySub, if_neg (by simp [hb]), stripL, List.dropWhile_cons,
        if_pos (by decide), badDrop_cons_bad hb, pySubB_eq]
      exact stripL_pySub_badDrop cs

theorem pySub_append_allGood :
    ∀ (g rest : List Char), (∀ c ∈ g, goodChar c = true) →
      pySub (g ++ rest) = g ++ pySub rest := by
  intro g
  induction g with
  | nil => intro rest _; rfl
  | cons c g' ih =>
    intro rest hg
    have hc : goodChar c = true := hg c (by simp)
    show pySub (c :: (g' ++ rest)) = _
    rw [pySub, if_pos hc, ih rest (fun x hx => hg x (by simp [hx]))]
    rfl

theorem runsAux_append_allGood :
    ∀ (g : List Char), (∀ c ∈ g, goodChar c = true) →
      ∀ (r acc : List Char), runsAux (g ++ r) acc = runsAux r (acc ++ g) := by
  intro g
  induction g with
  | nil => intro _ r acc; simp
  | cons c g' ih =>
    intro hg r acc
    have hc : goodChar c = true := hg c (by simp)
    show runsAux (c :: (g' ++ r)) acc = _
    rw [runsAux, if_pos hc, ih (fun x hx => hg x (by simp [hx])) r (acc ++ [c])]
    congr 1
    simp

theorem goodRuns_cons_bad {c : Char} {cs : List Char} (h : goodChar c = false) :
    goodRuns (c :: cs) = goodRuns cs := by
  show runsAux (c :: cs) [] = runsAux cs []
  rw [runsAux, if_neg (by simp [h])]
  rfl

theorem goodRuns_badDrop (l : List Char) : goodRuns (badDrop l) = goodRuns l := by
  induction l with
  | nil => rfl
  | cons c cs ih =>
    by_cases h : goodChar c
    · rw [badDrop_cons_good h]
    · have hb : goodChar c = false := by simpa using h
      rw [badDrop_cons_bad hb, ih, goodRuns_cons_bad hb]

theorem runsAux_nil_ne (acc : List Char) (hacc : acc ≠ []) :
    runsAux [] acc = [acc] := by
  rw [runsAux, if_neg (by simpa [List.isEmpty_iff] using hacc)]

theorem runsAux_emit (acc : List Char) (hacc : acc ≠ []) :
    ∀ rest : List Char,
      (rest = [] ∨ ∃ b r2, rest = b :: r2 ∧ goodChar b = false) →
      runsAux rest acc = acc :: goodRuns (badDrop rest) := by
  intro rest hrest
  rcases hrest with h | ⟨b, r2, rfl, hb⟩
  · subst h
    rw [runsAux_nil_ne acc hacc]
    rfl
  · rw [runsAux, if_neg (by simp [hb]),
      if_neg (by simpa [List.isEmpty_iff] using hacc),
      badDrop_cons_bad hb, goodRuns_badDrop]
    rfl

theorem runsAux_shape :
    ∀ (x acc : List Char), acc ≠ [] →
      ∃ h1 t, runsAux x acc = (acc ++ h1) :: t := by
  intro x
  induction x with
  | nil =>
    intro acc hacc
    exact ⟨[], [], by rw [runsAux_nil_ne acc hacc]; simp⟩
  | cons c cs ih =>
    intro acc hacc
    by_cases h : goodChar c
    · obtain ⟨h1, t, ht⟩ := ih (acc ++ [c]) (by simp)
      refine ⟨[c] ++ h1, t, ?_⟩
      rw [runsAux, if_pos h, ht]
      simp
    · refine ⟨[], runsAux cs [], ?_⟩
      rw [runsAux, if_neg (by simp [h]),
        if_neg (by simpa [List.isEmpty_iff] using hacc)]
      simp

theorem dropWhile_allFalse {p : Char → Bool} :
    ∀ m : List Char, (∀ c ∈ m, p c = false) → m.dropWhile p = m := by
  intro m hm
  cases m with
  | nil => rfl
  | cons a as => rw [List.dropWhile_cons, if_neg (by simp [hm a (by simp)])]

theorem stripR_noDash (x : List Char) (h : ∀ c ∈ x, (c == '-') = false) :
    stripR x = x := by
  unfold stripR
  rw [dropWhile_allFalse _ (fun c hc => h c (List.mem_reverse.mp hc))]
  exact List.reverse_reverse x

theorem stripR_append_dash (x : List Char) : stripR (x ++ ['-']) = stripR x := by
  unfold stripR
  rw [List.reverse_append]
  show ((('-' :: x.reverse).dropWhile (fun c => c == '-')).reverse) = _
  rw [List.dropWhile_cons, if_pos (by decide)]

theorem stripR_append_ne (a b : List Char) (h : stripR b ≠ []) :
    stripR (a ++ b) = a ++ stripR b := by
  have hb : (b.reverse.dropWhile (fun c => c == '-')).isEmpty = false := by
    cases he : b.reverse.dropWhile (fun c => c == '-') with
    | nil =>
      exfalso
      apply h
      unfold stripR
      rw [he]
      rfl
    | cons _ _ => rfl
  unfold stripR
  rw [List.reverse_append, List.dropWhile_append, hb]
  simp

theorem stripR_pySub_join :
    ∀ (n : Nat) (m : List Char), m.length ≤ n → badDrop m = m →
      stripR (pySub m) = joinDash (goodRuns m) := by
  intro n
  induction n with
  | zero =>
    intro m hm _
    have hm0 : m = [] := List.length_eq_zero.mp (Nat.le_zero.mp hm)
    subst hm0
    rfl
  | succ n ih =>
    intro m hm hbd
    cases m with
    | nil => rfl
    | cons c m' =>
      have hc : goodChar c = true := by
        by_contra hcc
        have hcb : goodChar c = false := by
          cases hgc : goodChar c
          · rfl
          · exact absurd hgc hcc
        rw [badDrop_cons_bad hcb] at hbd
        have h2 : (badDrop m').length ≤ m'.length := dropWhile_length_le m'
        rw [hbd] at h2
        simp at h2
      set g := (c :: m').takeWhile goodChar with hgdef
      set rest := (c :: m').dropWhile goodChar with hrdef
      have hsplit : g ++ rest = c :: m' :=
        List.takeWhile_append_dropWhile goodChar (c :: m')
      have hgood : ∀ x ∈ g, goodChar x = true :=
        fun x hx => List.mem_takeWhile_imp hx
      have hgne : g ≠ [] := by
        rw [hgdef, List.takeWhile_cons, if_pos hc]
        simp
      have hps : pySub (c :: m') = g ++ pySub rest := by
        conv_lhs => rw [← hsplit]
        exact pySub_append_allGood g rest hgood
      have hruns : goodRuns (c :: m') = runsAux rest g := by
        show runsAux (c :: m') [] = _
        conv_lhs => rw [← hsplit]
        rw [runsAux_append_allGood g hgood rest []]
        rfl
      cases hre : rest with
      | nil =>
        rw [hps, hre, hruns, hre, runsAux_nil_ne g hgne]
        show stripR (g ++ []) = joinDash [g]
        rw [List.append_nil]
        rw [stripR_noDash g (fun x hx => goodChar_ne_dash (hgood x hx))]
        rfl
      | cons b r2 =>
        have hbbad : goodChar b = false := by
          have hdw : (c :: m').dropWhile goodChar = b :: r2 := by
            rw [← hrdef, hre]
          exact dropWhile_head_false hdw
        have hrest_emit : runsAux rest g = g :: goodRuns (badDrop rest) :=
          runsAux_emit g hgne rest (Or.inr ⟨b, r2, hre, hbbad⟩)
        have hbr : badDrop rest = badDrop r2 := by
          rw [hre]
          exact badDrop_cons_bad hbbad
        have hpr : pySub rest = '-' :: pySub (badDrop r2) := by
          rw [hre, pySub, if_neg (by simp [hbbad]), pySubB_eq]
        have hlen : (badDrop r2).length ≤ n := by
          have h1 : (badDrop r2).length ≤ r2.length := dropWhile_length_le r2
          have h3 : rest.length ≤ (c :: m').length := by
            rw [hrdef]
            exact dropWhile_length_le _
          rw [hre] at h3
          have h4 : (c :: m').length ≤ n + 1 := hm
          simp only [List.length_cons] at h3 h4
          omega
        have hIH := ih (badDrop r2) hlen (badDrop_idem r2)
        cases hk : badDrop r2 with
        | nil =>
          rw [hps, hpr, hk, hruns, hrest_emit, hbr, hk]
          show stripR (g ++ ['-']) = joinDash [g]
          rw [stripR_append_dash]
          rw [stripR_noDash g (fun x hx => goodChar_ne_dash (hgood x hx))]
          rfl
        | cons g2 k2 =>
          rw [hk] at hIH
          have hg2 : goodChar g2 = true := badDrop_head_good hk
          obtain ⟨h1, t, ht⟩ := runsAux_shape k2 [g2] (by simp)
          have hgr : goodRuns (g2 :: k2) = ([g2] ++ h1) :: t := by
            show runsAux (g2 :: k2) [] = _
            rw [runsAux, if_pos hg2]
            simpa using ht
          have hjoin_ne : joinDash (goodRuns (g2 :: k2)) ≠ [] := by
            rw [hgr]
            cases t with
            | nil => simp [joinDash]
            | cons r rs => simp [joinDash]
          have hRne : stripR (pySub (g2 :: k2)) ≠ [] := by
            rw [hIH]
            exact hjoin_ne
          rw [hps, hpr, hk, hruns, hrest_emit, hbr, hk, hgr]
          have hassoc : g ++ '-' :: pySub (g2 :: k2)
              = (g ++ ['-']) ++ pySub (g2 :: k2) := by simp
          rw [hassoc, stripR_append_ne _ _ hRne, hIH, hgr]
          show (g ++ ['-']) ++ joinDash (([g2] ++ h1) :: t)
              = joinDash (g :: ([g2] ++ h1) :: t)
          rw [joinDash]
          simp

theorem slug_join (l : List Char) :
    pyStripDash (pySub l) = joinDash (goodRuns l) := by
  unfold pyStripDash
  rw [stripL_pySub, ← goodRuns_badDrop l]
  exact stripR_pySub_join (badDrop l).length (badDrop l) le_rfl (badDrop_idem l)

theorem slugStr_join (s : String) :
    slugStr s = String.mk (joinDash (goodRuns (s.toList.map Char.toLower))) := by
  unfold slugStr
  rw [slug_join]

theorem buildGo_extract (descs : String → Option String) :
    ∀ (es : List Json) (rows : List Row), extractRows es = some rows →
      buildGo descs es
        = (rows.map (fun r => (fileName r, renderProfile r (descs r.sid))), none) := by
  intro es
  induction es with
  | nil =>
    intro rows h
    obtain rfl : ([] : List Row) = rows := Option.some.inj h
    rfl
  | cons e es' ih =>
    intro rows h
    unfold extractRows at h
    cases hx : extractRow e with
    | error msg =>
      rw [hx] at h
      exact absurd h (by simp)
    | ok r =>
      rw [hx] at h
      cases hrest : extractRows es' with
      | none =>
        rw [hrest] at h
        exact absurd h (by simp)
      | some rs =>
        rw [hrest] at h
        have h2 : r :: rs = rows := Option.some.inj h
        subst h2
        show buildGo descs (e :: es') = _
        unfold buildGo
        rw [hx, ih rs hrest]
        rfl

theorem buildGo_fst_names (descs : String → Option String) :
    ∀ (es : List Json) (w : String × String),
      w ∈ (buildGo descs es).fst → ∃ r : Row, w.fst = fileName r := by
  intro es
  induction es with
  | nil => intro w h; exact absurd h (by simp [buildGo])
  | cons e es' ih =>
    intro w h
    unfold buildGo at h
    cases hx : extractRow e with
    | error msg =>
      rw [hx] at h
      exact absurd h (by simp)
    | ok r =>
      rw [hx] at h
      simp only [List.mem_cons] at h
      rcases h with h | h
      · exact ⟨r, by rw [h]⟩
      · exact ih w h

theorem buildMain_writes_profiles (file : Option FileText)
    (descs : String → Option String) (w : String × String)
    (h : w ∈ (buildMain file descs).fst) :
    ∃ rest, w.fst = "data/profiles/" ++ rest := by
  have hname : ∀ r : Row, ∃ rest, fileName r = "data/profiles/" ++ rest := by
    intro r
    exact ⟨r.sid ++ "_" ++ slugStr r.name ++ ".md",
      by unfold fileName; simp [String.append_assoc]⟩
  have viaGo : ∀ es, w ∈ (buildGo descs es).fst → ∃ rest, w.fst = "data/profiles/" ++ rest := by
    intro es hw
    obtain ⟨r, hr⟩ := buildGo_fst_names descs es w hw
    obtain ⟨rest, hrest⟩ := hname r
    exact ⟨rest, by rw [hr, hrest]⟩
  cases file with
  | none => exact absurd h (by simp [buildMain])
  | some ft =>
    cases ft with
    | badText => exact absurd h (by simp [buildMain])
    | emptyText => exact absurd h (by simp [buildMain, buildParsed, objGetD,
        lookupLast, iterElems, buildGo])
    | jsonText j =>
      cases j with
      | jobj l =>
        simp only [buildMain, buildParsed] at h
        cases hi : iterElems (objGetD l "subnets" (Json.jarr [])) with
        | error msg =>
          rw [hi] at h
          exact absurd h (by simp)
        | ok es =>
          rw [hi] at h
          exact viaGo es h
      | jnull => exact absurd h (by simp [buildMain, buildParsed])
      | jbool b => exact absurd h (by simp [buildMain, buildParsed])
      | jnum n => exact absurd h (by simp [buildMain, buildParsed])
      | jstr s => exact absurd h (by simp [buildMain, buildParsed])
      | jarr a => exact absurd h (by simp [buildMain, buildParsed])

end BuildProfiles

namespace FetchAlpha

theorem alphaStep_preserve (fp : String → Option String)
    (ex : String → String) (st : DescState) (r : ARow) (i : String)
    (c : String) (h : st i = some c) :
    alphaStep fp ex st r i = some c := by
  unfold alphaStep
  cases hs : st r.sid with
  | some v => exact h
  | none =>
    cases hf : fp r.name with
    | none => exact h
    | some url =>
      dsimp only
      by_cases ht : ex url = ""
      · rw [if_pos ht]
        exact h
      · rw [if_neg ht]
        have hne : i ≠ r.sid := by
          intro he
          rw [he, hs] at h
          exact Option.noConfusion h
        simp only [if_neg hne]
        exact h

theorem alphaMain_preserve (fp : String → Option String)
    (ex : String → String) :
    ∀ (rows : List ARow) (st : DescState) (i : String) (c : String),
      st i = some c → alphaMain fp ex rows st i = some c := by
  intro rows
  induction rows with
  | nil => intro st i c h; exact h
  | cons r rs ih =>
    intro st i c h
    show List.foldl (alphaStep fp ex) (alphaStep fp ex st r) rs i = some c
    exact ih (alphaStep fp ex st r) i c (alphaStep_preserve fp ex st r i c h)

end FetchAlpha

namespace Snapshot

theorem taoTrending_nil (parse : String → List String) (p : Page) :
    taoTrending parse p = [] := by
  unfold taoTrending
  cases p.trendingMatch with
  | none => rfl
  | some payload => rfl

theorem fetchTao_ok_some {p : Page} {parse : String → List String}
    {r : TaoResult} (h : fetchTao (.ok p) parse = .ok (some r)) :
    r.subnets = (List.range (minCount p)).filterMap (procRow p)
    ∧ r.trending = [] := by
  unfold fetchTao at h
  dsimp only at h
  by_cases h0 : minCount p = 0
  · rw [if_pos h0] at h
    exact absurd h (by simp)
  · rw [if_neg h0] at h
    cases hs : p.sumMatch with
    | some v =>
      rw [hs] at h
      dsimp only at h
      by_cases hv : sumFloatRaises v = true
      · rw [if_pos hv] at h
        exact absurd h (by simp)
      · rw [if_neg hv] at h
        have h2 := Option.some.inj (Except.ok.inj h)
        rw [← h2]
        exact ⟨rfl, taoTrending_nil parse p⟩
    | none =>
      rw [hs] at h
      dsimp only at h
      have h2 := Option.some.inj (Except.ok.inj h)
      rw [← h2]
      exact ⟨rfl, taoTrending_nil parse p⟩

end Snapshot

namespace ScrapeTao

theorem scrapeMain_of_priorOk {prior : Option FileText}
    (h : priorOk prior = true) (rows : List SRow) (t : Int) :
    scrapeMain (.ok rows) t prior = some (.jsonText (newJson rows t)) := by
  unfold priorOk at h
  unfold scrapeMain
  dsimp only
  cases hl : loadsPrior prior with
  | error e =>
    rw [hl] at h
    exact absurd h (by simp)
  | ok oldJ =>
    rw [hl] at h
    dsimp only at h
    dsimp only
    rw [if_pos h]

theorem hasSubnetsKey_newJson (rows : List SRow) (t : Int) :
    hasSubnetsKey (some (.jsonText (newJson rows t))) = true := by
  rfl

end ScrapeTao

/- ====================================================== -/
/- Claim theorems                                         -/
/- ====================================================== -/

/-- C1 counterexample: when the fetch of scrape_taomarketcap.py raises
and data/subnets.json did not exist, main terminates with the exception
and leaves no file, so after the run data/subnets.json does not parse as
JSON with a subnets key — refuting the claim for this script. -/
theorem c1_counterexample :
    ScrapeTao.scrapeMain (.error "ConnectionError") 0 none = none
    ∧ ScrapeTao.hasSubnetsKey
        (ScrapeTao.scrapeMain (.error "ConnectionError") 0 none) = false :=
  ⟨rfl, rfl⟩

/-- C1 amended: fetch_subnets_bt.py always leaves data/subnets.json as
valid JSON with a subnets key, even when the fetch raises; for
scrape_taomarketcap.py this holds only for runs whose fetch succeeds and
whose prior file state survives the unguarded load and diff computation
(on any failure that script propagates the exception and leaves the
prior state, possibly stale or absent, untouched). -/
theorem c1_amended :
    (∀ (fetch : Except String (List Int)) (probes : Int → FetchBt.Probe)
        (t : Int),
        ScrapeTao.hasSubnetsKey (some (FetchBt.btMain fetch probes t)) = true)
    ∧ (∀ (rows : List ScrapeTao.SRow) (t : Int) (prior : Option FileText),
        ScrapeTao.priorOk prior = true →
        ScrapeTao.hasSubnetsKey (ScrapeTao.scrapeMain (.ok rows) t prior)
          = true) := by
  constructor
  · intro fetch probes t
    cases fetch with
    | ok ids => rfl
    | error e => rfl
  · intro rows t prior h
    rw [ScrapeTao.scrapeMain_of_priorOk h rows t]
    exact ScrapeTao.hasSubnetsKey_newJson rows t

/-- Witness for the amended C1 at a concrete run. -/
theorem c1_witness :
    ScrapeTao.priorOk none = true
    ∧ ScrapeTao.hasSubnetsKey
        (ScrapeTao.scrapeMain (.ok [{ id := 7, name := "apex" }]) 42 none)
        = true :=
  ⟨rfl, c1_amended.2 [{ id := 7, name := "apex" }] 42 none rfl⟩

/-- C2: when the file upload succeeds and the vector-store attach
raises, upload_to_vector_store.py main returns exit code 0 and the
snapshot script's upload_to_vector_store returns True. -/
theorem c2_best_effort (k fid e : String) (listRes : Except String Nat)
    (liOk : Except String Unit) (lCr : Except String String)
    (hk : UploadVS.startsWithSk k = true) :
    (UploadVS.upMain (some k) true (.ok ()) (.ok ()) listRes (.ok fid)
        (.error e) liOk lCr).fst = 0
    ∧ Snapshot.snapUpload (some k) true (.ok ()) (.ok ()) (.ok fid)
        (.error e) = true := by
  constructor
  · simp [UploadVS.upMain, hk]
  · rfl

/-- Witness for C2 at a concrete run. -/
theorem c2_witness :
    (UploadVS.upMain (some "sk-key") true (.ok ()) (.ok ()) (.ok 0)
        (.ok "fid") (.error "denied") (.ok ()) (.ok "x")).fst = 0
    ∧ Snapshot.snapUpload (some "sk-key") true (.ok ()) (.ok ())
        (.ok "fid") (.error "denied") = true :=
  c2_best_effort "sk-key" "fid" "denied" (.ok 0) (.ok ()) (.ok "x") rfl

/-- C3 counterexample: a present but malformed key (no sk- start) is
never checked by upload_to_openai.py: the run attempts the file listing
and the file creation over the network and main still returns 0 —
refuting both the non-zero exit and the no-network-call parts for that
script. -/
theorem c3_counterexample :
    UploadVS.startsWithSk "bad" = false
    ∧ (UploadOpenai.openaiMain (some "bad") true true (.error "401")
        (.error "401")).fst = 0
    ∧ (UploadOpenai.openaiMain (some "bad") true true (.error "401")
        (.error "401")).snd = [NetCall.filesList, NetCall.filesCreate] :=
  ⟨rfl, rfl, rfl⟩

/-- C3 amended: upload_to_vector_store.py returns 1 without any remote
call whenever the key is absent or does not start with sk-; for
upload_to_openai.py this holds (given the input files are present) only
when the key is absent — that script performs no format check, so a
present malformed key leads to attempted network calls and exit 0. -/
theorem c3_amended :
    (∀ (fe : Bool) (iNew cOk : Except String Unit) (lRes : Except String Nat)
        (cRes vRes : Except String String) (liOk : Except String Unit)
        (lCr : Except String String),
        UploadVS.upMain none fe iNew cOk lRes cRes vRes liOk lCr = (1, []))
    ∧ (∀ (k : String) (fe : Bool) (iNew cOk : Except String Unit)
        (lRes : Except String Nat) (cRes vRes : Except String String)
        (liOk : Except String Unit) (lCr : Except String String),
        UploadVS.startsWithSk k = false →
        UploadVS.upMain (some k) fe iNew cOk lRes cRes vRes liOk lCr
          = (1, []))
    ∧ (∀ (lRes : Except String Nat) (cRes : Except String String),
        UploadOpenai.openaiMain none true true lRes cRes = (1, [])) := by
  refine ⟨?_, ?_, ?_⟩
  · intro fe iNew cOk lRes cRes vRes liOk lCr
    rfl
  · intro k fe iNew cOk lRes cRes vRes liOk lCr hk
    simp [UploadVS.upMain, hk]
  · intro lRes cRes
    rfl

/-- Witness for the amended C3 at a concrete run. -/
theorem c3_witness :
    UploadVS.startsWithSk "OPENAI" = false
    ∧ UploadVS.upMain (some "OPENAI") true (.ok ()) (.ok ()) (.ok 0)
        (.ok "f") (.ok "v") (.ok ()) (.ok "g") = (1, []) :=
  ⟨rfl, c3_amended.2.1 "OPENAI" true (.ok ()) (.ok ()) (.ok 0) (.ok "f")
    (.ok "v") (.ok ()) (.ok "g") rfl⟩

/-- C4: over a well-formed subnets file (an object whose subnets value
is a list of records with id and name), main of build_profiles.py
performs exactly one write per record, at the deterministic path
id underscore slug(name) dot md, and slug is exactly the lowercase
string with every maximal run outside [a-z0-9] collapsed to a single
dash and boundary dashes stripped (the joinDash form). -/
theorem c4_profiles (o : List (String × Json)) (entries : List Json)
    (rows : List BuildProfiles.Row) (descs : String → Option String)
    (hs : objGetD o "subnets" (Json.jarr []) = Json.jarr entries)
    (he : BuildProfiles.extractRows entries = some rows) :
    BuildProfiles.buildMain (some (.jsonText (.jobj o))) descs
      = (rows.map (fun r => (BuildProfiles.fileName r,
          BuildProfiles.renderProfile r (descs r.sid))), none)
    ∧ (BuildProfiles.buildMain (some (.jsonText (.jobj o))) descs).fst.length
        = rows.length
    ∧ (BuildProfiles.buildMain (some (.jsonText (.jobj o))) descs).fst.map
        Prod.fst = rows.map BuildProfiles.fileName
    ∧ ∀ s : String, BuildProfiles.slugStr s
        = String.mk (BuildProfiles.joinDash (BuildProfiles.goodRuns
            (s.toList.map Char.toLower))) := by
  have hb : BuildProfiles.buildMain (some (.jsonText (.jobj o))) descs
      = (rows.map (fun r => (BuildProfiles.fileName r,
          BuildProfiles.renderProfile r (descs r.sid))), none) := by
    simp only [BuildProfiles.buildMain, BuildProfiles.buildParsed]
    rw [hs]
    dsimp only [BuildProfiles.iterElems]
    exact BuildProfiles.buildGo_extract descs entries rows he
  refine ⟨hb, ?_, ?_, BuildProfiles.slugStr_join⟩
  · rw [hb]
    simp
  · rw [hb]
    simp

/-- Witness for C4 at a concrete one-record file. -/
theorem c4_witness :
    BuildProfiles.buildMain (some (.jsonText (.jobj [("subnets", .jarr
        [Json.jobj [("id", Json.jnum 3), ("name", Json.jstr "Foo Bar")]])])))
      (fun _ => none)
      = ([(BuildProfiles.fileName { sid := "3", name := "Foo Bar" },
           BuildProfiles.renderProfile { sid := "3", name := "Foo Bar" }
             none)], none) :=
  (c4_profiles [("subnets", .jarr [Json.jobj [("id", Json.jnum 3),
      ("name", Json.jstr "Foo Bar")]])]
    [Json.jobj [("id", Json.jnum 3), ("name", Json.jstr "Foo Bar")]]
    [{ sid := "3", name := "Foo Bar" }] (fun _ => none) rfl rfl).1

/-- C5: a description file existing before a run of fetch_subnetalpha.py
keeps its content (the loop skips any id whose file exists), and
build_profiles.py writes only under data/profiles, so neither script
overwrites an existing description. -/
theorem c5_preserve (fp : String → Option String) (ex : String → String)
    (rows : List FetchAlpha.ARow) (st : FetchAlpha.DescState)
    (i c : String) (h : st i = some c) :
    FetchAlpha.alphaMain fp ex rows st i = some c
    ∧ ∀ (file : Option FileText) (descs : String → Option String)
        (w : String × String),
        w ∈ (BuildProfiles.buildMain file descs).fst →
        ∃ rest, w.fst = "data/profiles/" ++ rest :=
  ⟨FetchAlpha.alphaMain_preserve fp ex rows st i c h,
   fun file descs w hw =>
     BuildProfiles.buildMain_writes_profiles file descs w hw⟩

/-- Witness for C5 at a concrete run. -/
theorem c5_witness :
    FetchAlpha.alphaMain (fun _ => some "https://subnetalpha.ai/subnet/x")
      (fun _ => "text") [{ sid := "1", name := "Apex" }]
      (fun k => if k = "1" then some "kept" else none) "1" = some "kept" :=
  (c5_preserve (fun _ => some "https://subnetalpha.ai/subnet/x")
    (fun _ => "text") [{ sid := "1", name := "Apex" }]
    (fun k => if k = "1" then some "kept" else none) "1" "kept" rfl).1

/-- C6 counterexample: with the same fetched rows and timestamp, a prior
file whose text does not parse makes main raise before writing (the file
keeps the bad text), while a missing prior file yields the fresh write —
the final contents differ, refuting prior-content independence as
stated. -/
theorem c6_counterexample :
    ScrapeTao.scrapeMain (.ok [{ id := 1, name := "alpha" }]) 5
        (some .badText) = some .badText
    ∧ ScrapeTao.scrapeMain (.ok [{ id := 1, name := "alpha" }]) 5 none
        = some (.jsonText (ScrapeTao.newJson [{ id := 1, name := "alpha" }] 5))
    ∧ ScrapeTao.scrapeMain (.ok [{ id := 1, name := "alpha" }]) 5
        (some .badText)
      ≠ ScrapeTao.scrapeMain (.ok [{ id := 1, name := "alpha" }]) 5 none := by
  refine ⟨rfl, rfl, ?_⟩
  intro hcontra
  have h2 : (some FileText.badText : Option FileText)
      = some (.jsonText (ScrapeTao.newJson [{ id := 1, name := "alpha" }] 5)) :=
    hcontra
  exact FileText.noConfusion (Option.some.inj h2)

/-- C6 amended: for runs fetching the same rows at the same timestamp,
whenever the prior file state lets main reach its write (the prior text
parses and its subnets entries carry hashable ids and names), the
content written to data/subnets.json is the same fresh object, fully
independent of the prior content. -/
theorem c6_amended (rows : List ScrapeTao.SRow) (t : Int)
    (p₁ p₂ : Option FileText)
    (h₁ : ScrapeTao.priorOk p₁ = true) (h₂ : ScrapeTao.priorOk p₂ = true) :
    ScrapeTao.scrapeMain (.ok rows) t p₁ = ScrapeTao.scrapeMain (.ok rows) t p₂
    ∧ ScrapeTao.scrapeMain (.ok rows) t p₁
        = some (.jsonText (ScrapeTao.newJson rows t)) := by
  rw [ScrapeTao.scrapeMain_of_priorOk h₁, ScrapeTao.scrapeMain_of_priorOk h₂]
  exact ⟨rfl, rfl⟩

/-- Witness for the amended C6 at two concrete priors. -/
theorem c6_witness :
    ScrapeTao.scrapeMain (.ok [{ id := 2, name := "beta" }]) 9 none
      = ScrapeTao.scrapeMain (.ok [{ id := 2, name := "beta" }]) 9
          (some .emptyText) :=
  (c6_amended [{ id := 2, name := "beta" }] 9 none (some .emptyText)
    rfl rfl).1

/-- C7: the placeholder fields of a generated profile are static
baselines — growth 7, short, medium and long conviction 50, 60 and 70,
buy and sell conviction 55 — for every record, and the rendered content
varies only through the name, the id and the description text. -/
theorem c7_static_placeholders :
    (∀ (r : BuildProfiles.Row) (d : Option String),
        BuildProfiles.renderProfile r d
          = BuildProfiles.templateFormat (BuildProfiles.mkFields r d)
        ∧ (BuildProfiles.mkFields r d).growth = "7"
        ∧ (BuildProfiles.mkFields r d).st = "50"
        ∧ (BuildProfiles.mkFields r d).mt = "60"
        ∧ (BuildProfiles.mkFields r d).lt = "70"
        ∧ (BuildProfiles.mkFields r d).conv = "55")
    ∧ (∀ (r₁ r₂ : BuildProfiles.Row) (d₁ d₂ : Option String),
        r₁.name = r₂.name → r₁.sid = r₂.sid →
        BuildProfiles.functionText d₁ = BuildProfiles.functionText d₂ →
        BuildProfiles.renderProfile r₁ d₁
          = BuildProfiles.renderProfile r₂ d₂) := by
  constructor
  · intro r d
    exact ⟨rfl, rfl, rfl, rfl, rfl, rfl⟩
  · intro r₁ r₂ d₁ d₂ h1 h2 h3
    unfold BuildProfiles.renderProfile BuildProfiles.templateFormat
      BuildProfiles.mkFields
    rw [h1, h2, h3]

/-- Witness for C7 at a concrete record. -/
theorem c7_witness :
    (BuildProfiles.mkFields { sid := "1", name := "Apex" } none).growth = "7"
    ∧ BuildProfiles.renderProfile { sid := "1", name := "Apex" } (some "d")
      = BuildProfiles.renderProfile { sid := "1", name := "Apex" }
          (some "d") :=
  ⟨(c7_static_placeholders.1 { sid := "1", name := "Apex" } none).2.1,
   c7_static_placeholders.2 { sid := "1", name := "Apex" }
     { sid := "1", name := "Apex" } (some "d") (some "d") rfl rfl rfl⟩

/-- C8: the trending list of every dictionary fetch_taomarketcap
returns is empty: the module never binds the name json, so the try body
raises NameError when the trending regex matches, and the bare except
yields the empty list; without a match the list is empty anyway. -/
theorem c8_trending (resp : Except String Snapshot.Page)
    (parse : String → List String) (r : Snapshot.TaoResult)
    (h : Snapshot.fetchTao resp parse = .ok (some r)) :
    r.trending = [] := by
  cases resp with
  | error e => exact absurd h (by simp [Snapshot.fetchTao])
  | ok p => exact (Snapshot.fetchTao_ok_some h).2

/-- Witness for C8 at a concrete page whose trending regex matches. -/
theorem c8_witness : Snapshot.oneResult.trending = [] :=
  c8_trending (.ok Snapshot.onePage) (fun _ => []) Snapshot.oneResult rfl

/-- C9 counterexample: a page with one match per field whose price token
is 1..2 passes the digit guard but makes float raise, so the record is
skipped by the loop handler: the function returns a dictionary with zero
records although the minimum match count is one. -/
theorem c9_counterexample :
    Snapshot.fetchTao (.ok Snapshot.badPricePage) (fun _ => [])
      = .ok (some { subnets := [], sumRaw := none, trending := [] })
    ∧ Snapshot.minCount Snapshot.badPricePage = 1
    ∧ ([] : List Snapshot.SubRec).length ≠ 1 :=
  ⟨rfl, rfl, by decide⟩

/-- C9 amended: the function returns None exactly on a zero minimum
match count; otherwise the subnets list is the positional pairing of the
first minimum-count matches of the six fields with the rows whose
guarded float conversions raise skipped, so its length is at most (not
always equal to) the minimum match count. -/
theorem c9_amended (p : Snapshot.Page) (parse : String → List String) :
    (Snapshot.minCount p = 0 → Snapshot.fetchTao (.ok p) parse = .ok none)
    ∧ (∀ r : Snapshot.TaoResult,
        Snapshot.fetchTao (.ok p) parse = .ok (some r) →
        r.subnets
          = (List.range (Snapshot.minCount p)).filterMap (Snapshot.procRow p)
        ∧ r.subnets.length ≤ Snapshot.minCount p) := by
  constructor
  · intro h0
    unfold Snapshot.fetchTao
    dsimp only
    rw [if_pos h0]
  · intro r h
    have hc := Snapshot.fetchTao_ok_some h
    refine ⟨hc.1, ?_⟩
    rw [hc.1]
    calc ((List.range (Snapshot.minCount p)).filterMap
            (Snapshot.procRow p)).length
        ≤ (List.range (Snapshot.minCount p)).length :=
          List.length_filterMap_le _ _
      _ = Snapshot.minCount p := List.length_range _

/-- Witness for the amended C9 at a concrete page. -/
theorem c9_witness :
    Snapshot.oneResult.subnets
      = (List.range (Snapshot.minCount Snapshot.onePage)).filterMap
          (Snapshot.procRow Snapshot.onePage) :=
  ((c9_amended Snapshot.onePage (fun _ => [])).2 Snapshot.oneResult rfl).1

/-- C10: build_profiles.py main tolerates an existing-but-empty subnets
file (treated as an object with an empty subnets list) and a parsed
object lacking the subnets key (default empty list): both runs finish
without raising and write no profile file. -/
theorem c10_degenerate (o : List (String × Json))
    (descs : String → Option String)
    (h : lookupLast o "subnets" = none) :
    BuildProfiles.buildMain (some .emptyText) descs = ([], none)
    ∧ BuildProfiles.buildMain (some (.jsonText (.jobj o))) descs
        = ([], none) := by
  constructor
  · rfl
  · simp only [BuildProfiles.buildMain, BuildProfiles.buildParsed]
    rw [show objGetD o "subnets" (Json.jarr []) = Json.jarr [] from by
      unfold objGetD
      rw [h]]
    rfl

/-- Witness for C10 at a concrete keyless object. -/
theorem c10_witness :
    BuildProfiles.buildMain (some .emptyText) (fun _ => none) = ([], none)
    ∧ BuildProfiles.buildMain
        (some (.jsonText (.jobj [("other", Json.jnum 1)]))) (fun _ => none)
        = ([], none) :=
  c10_degenerate [("other", Json.jnum 1)] (fun _ => none) rfl

end SubnetUpdater
